import Mathlib

/-!
# Verification of the assessment recommendation engine

A shallow embedding of `recommendation_engine.py`: the catalogue data model,
the weighted criteria scorer `_calculate_match_score`, the exclusion filter
`_filter_assessments`, the facade methods `recommend` and
`recommend_from_text`, and the catalogue loader `_load_catalogue`.

Modelling conventions:
* Python dict records are structures; a JSON field that may be absent or
  `null` is `Option (Option τ)` (`none` = key absent, `some none` = `null`),
  and `dict.get(key, default)` is `Option.getD`.
* Python `float` arithmetic is modelled over `ℚ` (all weights and the
  normalisation are exact decimal values).
* Operations that can raise (`.lower()` on `None`, `None <= int`, list
  indexing) return `Except String`; the carried string names the Python
  exception class.
* The TF-IDF vectorizer and `cosine_similarity` are external library calls;
  `recommend_from_text` receives the similarity row they produce as an
  explicit argument, and the engine records only whether the index was built.
-/

namespace AssessmentRec

/-- Python truthiness of an optional string field (`if criteria.field:`):
`None` and `""` are falsy. -/
def truthyStr : Option String → Bool
  | none => false
  | some s => s != ""

/-- Python truthiness of an optional list field: `None` and `[]` are falsy. -/
def truthyList : Option (List String) → Bool
  | none => false
  | some l => !l.isEmpty

/-- Python truthiness of an optional int field: `None` and `0` are falsy. -/
def truthyInt : Option Int → Bool
  | none => false
  | some n => n != 0

/-- Python's `str.lower()`, character by character (the catalogue holds
ASCII role/competency tags, for which per-character lowering is exact). -/
def lowerStr (s : String) : String :=
  String.mk (s.data.map Char.toLower)

def listIsPrefixOf : List Char → List Char → Bool
  | [], _ => true
  | _ :: _, [] => false
  | c :: cs, d :: ds => c == d && listIsPrefixOf cs ds

def listContainsSeq (needle : List Char) : List Char → Bool
  | [] => listIsPrefixOf needle []
  | d :: ds => listIsPrefixOf needle (d :: ds) || listContainsSeq needle ds

/-- Python's substring test `needle in haystack`. -/
def strContains (haystack needle : String) : Bool :=
  listContainsSeq needle.data haystack.data

/-- Python's `str.strip()`: remove leading and trailing whitespace. -/
def pyStrip (s : String) : String :=
  String.mk (((s.data.dropWhile Char.isWhitespace).reverse.dropWhile
    Char.isWhitespace).reverse)

/-- Equality of `Except` results is decidable, so concrete runs of the
embedded functions can be checked by `decide`. -/
instance instDecEqExcept {ε α : Type} [DecidableEq ε] [DecidableEq α] :
    DecidableEq (Except ε α)
  | .error a, .error b =>
    if h : a = b then .isTrue (congrArg Except.error h)
    else .isFalse (fun hc => h (Except.error.inj hc))
  | .error _, .ok _ => .isFalse (fun hc => Except.noConfusion hc)
  | .ok _, .error _ => .isFalse (fun hc => Except.noConfusion hc)
  | .ok a, .ok b =>
    if h : a = b then .isTrue (congrArg Except.ok h)
    else .isFalse (fun hc => h (Except.ok.inj hc))

/-- One catalogue record, as read by the engine's dict accesses. Fields the
schema declares nullable are `Option (Option _)` to separate an absent key
from an explicit JSON `null`; fields read with a list default behave
identically when absent or `[]`, so they are plain lists. -/
structure Assessment where
  id : String
  name : String
  url : Option String
  category : Option String
  type : Option (Option String)
  description : Option (Option String)
  duration_minutes : Option (Option Int)
  difficulty_level : Option (Option String)
  target_roles : List String
  competencies : List String
  use_cases : List String
  languages : List String
deriving DecidableEq

/-- The `RecommendationCriteria` dataclass: every field defaults to `None`. -/
structure RecommendationCriteria where
  target_role : Option String
  competencies : Option (List String)
  use_case : Option String
  assessment_type : Option String
  max_duration_minutes : Option Int
  difficulty_level : Option String
  language : Option String
  exclude_ids : Option (List String)
deriving DecidableEq

/-- `.lower()` applied to the result of a `dict.get` whose default is `""`:
a present-but-`null` value is Python `None`, and `None.lower()` raises. -/
def pyLower : Option String → Except String String
  | none => .error "AttributeError"
  | some s => .ok (lowerStr s)

/-- `a.get(key, '')` for a nullable string field. -/
def getStrD (field : Option (Option String)) : Option String :=
  field.getD (some "")

/-- Target-role dimension of `_calculate_match_score` (weight 30): returns
(score contribution, max_score contribution). -/
def roleScore (assessment : Assessment) (criteria : RecommendationCriteria) :
    ℚ × ℚ :=
  if truthyStr criteria.target_role then
    let role := criteria.target_role.getD ""
    let target_roles := assessment.target_roles
    if target_roles.contains "all" ||
        (target_roles.map lowerStr).contains (lowerStr role) then
      (30, 30)
    else if target_roles.any (fun r =>
        strContains (lowerStr r) (lowerStr role) ||
        strContains (lowerStr role) (lowerStr r)) then
      (15, 30)
    else (0, 30)
  else (0, 0)

/-- Competencies dimension (weight 25): overlap of lower-cased sets over the
size of the required set. -/
def competenciesScore (assessment : Assessment)
    (criteria : RecommendationCriteria) : ℚ × ℚ :=
  if truthyList criteria.competencies then
    let assessment_competencies := (assessment.competencies.map lowerStr).dedup
    let required_competencies :=
      ((criteria.competencies.getD []).map lowerStr).dedup
    if !required_competencies.isEmpty then
      let overlap := (required_competencies.filter
        (fun c => assessment_competencies.contains c)).length
      (((overlap : ℚ) / (required_competencies.length : ℚ)) * 25, 25)
    else (0, 25)
  else (0, 0)

/-- Use-case dimension (weight 20): all or nothing. -/
def useCaseScore (assessment : Assessment)
    (criteria : RecommendationCriteria) : ℚ × ℚ :=
  if truthyStr criteria.use_case then
    let uc := criteria.use_case.getD ""
    if (assessment.use_cases.map lowerStr).contains (lowerStr uc) then
      (20, 20)
    else (0, 20)
  else (0, 0)

/-- Assessment-type dimension (weight 10): `assessment.get('type','').lower()`
raises AttributeError when the stored value is `null`. -/
def typeScore (assessment : Assessment)
    (criteria : RecommendationCriteria) : Except String (ℚ × ℚ) :=
  if truthyStr criteria.assessment_type then
    let t := criteria.assessment_type.getD ""
    match pyLower (getStrD assessment.type) with
    | .error err => .error err
    | .ok atype =>
      if atype == lowerStr t then .ok (10, 10) else .ok (0, 10)
  else .ok (0, 0)

/-- Duration dimension (weight 5): `assessment.get('duration_minutes', 0)` is
Python `None` when the stored value is `null`, and `None <= int` raises
TypeError. Half credit up to 1.5 times the requested maximum. -/
def durationScore (assessment : Assessment)
    (criteria : RecommendationCriteria) : Except String (ℚ × ℚ) :=
  if truthyInt criteria.max_duration_minutes then
    let maxd := criteria.max_duration_minutes.getD 0
    match assessment.duration_minutes.getD (some 0) with
    | none => .error "TypeError"
    | some duration =>
      if duration ≤ maxd then .ok (5, 5)
      else if (duration : ℚ) ≤ (maxd : ℚ) * 1.5 then .ok (2.5, 5)
      else .ok (0, 5)
  else .ok (0, 0)

/-- Difficulty dimension (weight 5): same nullable-string access as the type
dimension. -/
def difficultyScore (assessment : Assessment)
    (criteria : RecommendationCriteria) : Except String (ℚ × ℚ) :=
  if truthyStr criteria.difficulty_level then
    let d := criteria.difficulty_level.getD ""
    match pyLower (getStrD assessment.difficulty_level) with
    | .error err => .error err
    | .ok adiff =>
      if adiff == lowerStr d then .ok (5, 5) else .ok (0, 5)
  else .ok (0, 0)

/-- Language dimension (weight 5). -/
def languageScore (assessment : Assessment)
    (criteria : RecommendationCriteria) : ℚ × ℚ :=
  if truthyStr criteria.language then
    let lang := criteria.language.getD ""
    if (assessment.languages.map lowerStr).contains (lowerStr lang) then
      (5, 5)
    else (0, 5)
  else (0, 0)

/-- `_calculate_match_score`: accumulate the seven dimensions in source
order and normalise to a percentage; a zero max_score yields 0.0. The three
dimensions reading nullable assessment fields can raise, in source order
type, duration, difficulty. -/
def calculate_match_score (assessment : Assessment)
    (criteria : RecommendationCriteria) : Except String ℚ :=
  match typeScore assessment criteria with
  | .error err => .error err
  | .ok p4 =>
    match durationScore assessment criteria with
    | .error err => .error err
    | .ok p5 =>
      match difficultyScore assessment criteria with
      | .error err => .error err
      | .ok p6 =>
        let p1 := roleScore assessment criteria
        let p2 := competenciesScore assessment criteria
        let p3 := useCaseScore assessment criteria
        let p7 := languageScore assessment criteria
        let score := p1.1 + p2.1 + p3.1 + p4.1 + p5.1 + p6.1 + p7.1
        let max_score := p1.2 + p2.2 + p3.2 + p4.2 + p5.2 + p6.2 + p7.2
        if max_score > 0 then .ok (score / max_score * 100) else .ok 0

/-- `_filter_assessments`: drop records whose id is in `exclude_ids`; a
falsy (`None` or empty) `exclude_ids` filters nothing. -/
def filter_assessments (assessments : List Assessment)
    (criteria : RecommendationCriteria) : List Assessment :=
  if truthyList criteria.exclude_ids then
    let exclude_set := criteria.exclude_ids.getD []
    assessments.filter (fun a => !exclude_set.contains a.id)
  else assessments

/-- Python's `round` to an integer: nearest, ties to even. -/
def roundHalfEven (q : ℚ) : Int :=
  let f := ⌊q⌋
  let r := q - (f : ℚ)
  if r < 1/2 then f
  else if r > 1/2 then f + 1
  else if f % 2 == 0 then f else f + 1

/-- Python's `round(x, 2)`. -/
def round2 (q : ℚ) : ℚ :=
  ((roundHalfEven (q * 100) : ℤ) : ℚ) / 100

/-- One entry of `recommend`'s output: `{**assessment, 'match_score': s}`,
a fresh composite of the original record and the rounded score. -/
structure ScoredResult where
  toAssessment : Assessment
  match_score : ℚ
deriving DecidableEq

/-- The scoring loop of `recommend`: score each candidate in catalogue
order; an exception from any single score aborts the whole call. -/
def scoreAll (criteria : RecommendationCriteria) :
    List Assessment → Except String (List ScoredResult)
  | [] => .ok []
  | a :: rest =>
    match calculate_match_score a criteria with
    | .error err => .error err
    | .ok s =>
      match scoreAll criteria rest with
      | .error err => .error err
      | .ok others =>
        .ok ({ toAssessment := a, match_score := round2 s } :: others)

/-- Stable insertion for a descending sort: `x` passes over exactly the
elements with a strictly greater key, so it lands after greater keys and
before equal ones — the guarantee of Python's stable `list.sort` when the
later element is inserted into the already-sorted earlier ones. -/
def insertDesc (key : α → ℚ) (x : α) : List α → List α
  | [] => [x]
  | y :: ys => if key x < key y then y :: insertDesc key x ys else x :: y :: ys

/-- Stable sort by `key`, descending: the model of
`list.sort(key=..., reverse=True)` (any two stable sorts under the same key
produce the same output). -/
def sortDescBy (key : α → ℚ) : List α → List α
  | [] => []
  | x :: xs => insertDesc key x (sortDescBy key xs)

/-- Python's slice `l[:n]` for an arbitrary integer bound: a non-negative
`n` keeps the first `n` elements, a negative `n` drops the last `|n|`. -/
def pySliceTo (n : Int) (l : List α) : List α :=
  if 0 ≤ n then l.take n.toNat else l.take (l.length - n.natAbs)

/-- Engine state after construction: the loaded catalogue, plus whether the
TF-IDF artifacts (`_vectorizer`, `_tfidf_matrix`) were built. -/
structure Engine where
  assessments : List Assessment
  indexBuilt : Bool
deriving DecidableEq

/-- `_build_text_index` returns early exactly when the catalogue is empty;
otherwise it installs the vectorizer and matrix. -/
def build_text_index (assessments : List Assessment) : Bool :=
  !assessments.isEmpty

/-- Engine construction from an already-decoded catalogue. -/
def mkEngine (assessments : List Assessment) : Engine :=
  { assessments := assessments, indexBuilt := build_text_index assessments }

/-- `recommend`: filter, score, stable-sort by rounded score descending,
slice to `top_n`. -/
def recommend (e : Engine) (criteria : RecommendationCriteria)
    (top_n : Int) : Except String (List ScoredResult) :=
  match scoreAll criteria (filter_assessments e.assessments criteria) with
  | .error err => .error err
  | .ok scored =>
    .ok (pySliceTo top_n (sortDescBy ScoredResult.match_score scored))

/-- One entry of `recommend_from_text`'s output:
`{**assessment, 'similarity': sim}`. -/
structure TextResult where
  toAssessment : Assessment
  similarity : ℚ
deriving DecidableEq

/-- Python's `enumerate`, starting at `i`. -/
def pyEnumerate (i : Nat) : List ℚ → List (Nat × ℚ)
  | [] => []
  | q :: qs => (i, q) :: pyEnumerate (i + 1) qs

/-- The result-building loop of `recommend_from_text`:
`self.assessments[idx]` raises IndexError out of range. -/
def takeResults (e : Engine) :
    List (Nat × ℚ) → Except String (List TextResult)
  | [] => .ok []
  | (idx, sim) :: rest =>
    match e.assessments[idx]? with
    | none => .error "IndexError"
    | some a =>
      match takeResults e rest with
      | .error err => .error err
      | .ok others =>
        .ok ({ toAssessment := a, similarity := sim } :: others)

/-- `recommend_from_text`. `sims` is the row of cosine similarities produced
by the external vectorizer/`cosine_similarity` calls, one entry per
catalogue document, passed as an oracle input. Degenerate inputs return an
empty list; otherwise similarities are stably sorted descending, at least
`max(top_n, 10)` results are materialised, and the returned count is sliced
to `max(5, min(top_n, 10))`. -/
def recommend_from_text (e : Engine) (sims : List ℚ) (text : String)
    (top_n : Int) : Except String (List TextResult) :=
  if text == "" || e.assessments.isEmpty || !e.indexBuilt then .ok []
  else if pyStrip text == "" then .ok []
  else
    let indexed := sortDescBy Prod.snd (pyEnumerate 0 sims)
    match takeResults e (pySliceTo (max top_n 10) indexed) with
    | .error err => .error err
    | .ok results => .ok (pySliceTo (max 5 (min top_n 10)) results)

/-- A JSON value, for the catalogue loader. -/
inductive Json where
  | null
  | bool (b : Bool)
  | num (q : ℚ)
  | str (s : String)
  | arr (elems : List Json)
  | obj (fields : List (String × Json))

/-- The named failure conditions of engine construction, plus the uncaught
AttributeError that `data.get` raises on a non-dict parse result. -/
inductive LoadError where
  | catalogueNotFound
  | catalogueMalformed
  | attributeError
deriving DecidableEq

/-- Key lookup in a JSON object. -/
def lookupField : List (String × Json) → String → Option Json
  | [], _ => none
  | (k, v) :: rest, key => if k == key then some v else lookupField rest key

/-- `_load_catalogue`. The file system and JSON parser are modelled by the
input: `none` for a missing file, `some (.error m)` for bytes that fail to
parse, `some (.ok j)` for a file parsing to `j`. The function returns
`data.get('assessments', [])` unvalidated; a parsed value that is not an
object has no `.get` method, so the call raises AttributeError, which the
source does not catch. -/
def load_catalogue (src : Option (Except String Json)) :
    Except LoadError Json :=
  match src with
  | none => .error .catalogueNotFound
  | some (.error _) => .error .catalogueMalformed
  | some (.ok (Json.obj fields)) =>
    .ok ((lookupField fields "assessments").getD (Json.arr []))
  | some (.ok _) => .error .attributeError

/-- Whether any criteria field at all is truthy. -/
def anyFieldSet (c : RecommendationCriteria) : Bool :=
  truthyStr c.target_role || truthyList c.competencies ||
  truthyStr c.use_case || truthyStr c.assessment_type ||
  truthyInt c.max_duration_minutes || truthyStr c.difficulty_level ||
  truthyStr c.language || truthyList c.exclude_ids

/-! ### Concrete sample data

The single-record scenario from the specification, a second record, and the
criteria objects exercised by the concrete instantiations below. -/

/-- A criteria object with every field left unset. -/
def noCriteria : RecommendationCriteria :=
  { target_role := none, competencies := none, use_case := none,
    assessment_type := none, max_duration_minutes := none,
    difficulty_level := none, language := none, exclude_ids := none }

/-- The spec's scenario record `A1`. -/
def sampleA1 : Assessment :=
  { id := "A1", name := "Verify Numerical", url := none, category := none,
    type := none, description := none, duration_minutes := some (some 20),
    difficulty_level := none, target_roles := ["analyst"],
    competencies := [], use_cases := ["hiring"], languages := [] }

/-- A second record aimed at managers. -/
def sampleA2 : Assessment :=
  { sampleA1 with id := "A2", target_roles := ["manager"] }

/-- A two-record engine. -/
def engineW : Engine := mkEngine [sampleA1, sampleA2]

def cManager : RecommendationCriteria :=
  { noCriteria with target_role := some "manager" }

def cAnalystHiring : RecommendationCriteria :=
  { noCriteria with target_role := some "analyst", use_case := some "hiring" }

def cExclude : RecommendationCriteria :=
  { noCriteria with exclude_ids := some ["A1"] }

def scoredA1zero : ScoredResult :=
  { toAssessment := sampleA1, match_score := 0 }

def scoredA2zero : ScoredResult :=
  { toAssessment := sampleA2, match_score := 0 }

def scoredA2hundred : ScoredResult :=
  { toAssessment := sampleA2, match_score := 100 }

def textA2 : TextResult := { toAssessment := sampleA2, similarity := 2 }

def textA1 : TextResult := { toAssessment := sampleA1, similarity := 1 }

/-! ### Properties of the stable descending sort -/

theorem mem_insertDesc {key : α → ℚ} {x z : α} {l : List α} :
    z ∈ insertDesc key x l ↔ z = x ∨ z ∈ l := by
  induction l with
  | nil => simp [insertDesc]
  | cons y ys ih =>
    simp only [insertDesc]
    split
    · simp only [List.mem_cons, ih]
      tauto
    · simp

theorem mem_sortDescBy {key : α → ℚ} {z : α} {l : List α} :
    z ∈ sortDescBy key l ↔ z ∈ l := by
  induction l with
  | nil => simp [sortDescBy]
  | cons x xs ih =>
    simp only [sortDescBy, mem_insertDesc, ih, List.mem_cons]

theorem length_insertDesc (key : α → ℚ) (x : α) (l : List α) :
    (insertDesc key x l).length = l.length + 1 := by
  induction l with
  | nil => rfl
  | cons y ys ih =>
    simp only [insertDesc]
    split
    · simp [ih]
    · simp

theorem length_sortDescBy (key : α → ℚ) (l : List α) :
    (sortDescBy key l).length = l.length := by
  induction l with
  | nil => rfl
  | cons x xs ih => simp [sortDescBy, length_insertDesc, ih]

theorem pairwise_insertDesc {key : α → ℚ} {x : α} {l : List α}
    (h : l.Pairwise (fun a b => key b ≤ key a)) :
    (insertDesc key x l).Pairwise (fun a b => key b ≤ key a) := by
  induction l with
  | nil => simp [insertDesc]
  | cons y ys ih =>
    rw [List.pairwise_cons] at h
    obtain ⟨hy, hys⟩ := h
    simp only [insertDesc]
    split
    · rename_i hlt
      rw [List.pairwise_cons]
      refine ⟨fun z hz => ?_, ih hys⟩
      rcases mem_insertDesc.mp hz with rfl | hz
      · exact le_of_lt hlt
      · exact hy z hz
    · rename_i hge
      rw [not_lt] at hge
      rw [List.pairwise_cons]
      refine ⟨fun z hz => ?_, List.pairwise_cons.mpr ⟨hy, hys⟩⟩
      rcases List.mem_cons.mp hz with rfl | hz
      · exact hge
      · exact le_trans (hy z hz) hge

theorem pairwise_sortDescBy (key : α → ℚ) (l : List α) :
    (sortDescBy key l).Pairwise (fun a b => key b ≤ key a) := by
  induction l with
  | nil => simp [sortDescBy]
  | cons x xs ih => exact pairwise_insertDesc ih

/-- Inserting `x` adds it before the elements of equal key and leaves the
rest of the filtered list unchanged. -/
theorem filter_insertDesc (key : α → ℚ) (x : α) (q : ℚ) (l : List α) :
    (insertDesc key x l).filter (fun y => key y == q) =
      (if key x == q then [x] else []) ++
        l.filter (fun y => key y == q) := by
  induction l with
  | nil => simp [insertDesc, List.filter_cons]
  | cons y ys ih =>
    simp only [insertDesc]
    split
    · rename_i hlt
      by_cases hy : key y == q
      · have hx : (key x == q) = false := by
          rw [beq_iff_eq] at hy
          rw [beq_eq_false_iff_ne]
          intro hx
          rw [hx, hy] at hlt
          exact lt_irrefl _ hlt
        simp [List.filter_cons, hy, hx, ih]
      · simp only [Bool.not_eq_true] at hy
        simp [List.filter_cons, hy, ih]
    · by_cases hx : key x == q
      · simp [List.filter_cons, hx]
      · simp only [Bool.not_eq_true] at hx
        simp [List.filter_cons, hx]

/-- Stability of `sortDescBy`: the elements of any fixed key keep their
original relative order. -/
theorem filter_sortDescBy (key : α → ℚ) (q : ℚ) (l : List α) :
    (sortDescBy key l).filter (fun y => key y == q) =
      l.filter (fun y => key y == q) := by
  induction l with
  | nil => rfl
  | cons x xs ih =>
    simp only [sortDescBy, filter_insertDesc, ih, List.filter_cons]
    split <;> simp

/-! ### Properties of slicing and enumeration -/

theorem pySliceTo_sublist (n : Int) (l : List α) : List.Sublist (pySliceTo n l) l := by
  unfold pySliceTo
  split <;> exact List.take_sublist ..

theorem length_pySliceTo_le (n : Int) (l : List α) (h : 0 ≤ n) :
    (pySliceTo n l).length ≤ n.toNat := by
  unfold pySliceTo
  rw [if_pos h]
  exact List.length_take_le ..

theorem length_pySliceTo (n : Int) (l : List α) (h : 0 ≤ n) :
    (pySliceTo n l).length = min n.toNat l.length := by
  unfold pySliceTo
  rw [if_pos h]
  exact List.length_take ..

theorem length_pyEnumerate (i : Nat) (l : List ℚ) :
    (pyEnumerate i l).length = l.length := by
  induction l generalizing i with
  | nil => rfl
  | cons q qs ih => simp [pyEnumerate, ih]

theorem fst_lt_of_mem_pyEnumerate {i : Nat} {l : List ℚ} {p : Nat × ℚ}
    (h : p ∈ pyEnumerate i l) : p.1 < i + l.length := by
  induction l generalizing i with
  | nil => cases h
  | cons q qs ih =>
    simp only [pyEnumerate, List.mem_cons] at h
    rcases h with rfl | h
    · simp
    · have := ih h
      simp only [List.length_cons]
      omega

/-! ### Per-dimension bounds: each dimension contributes at least 0 and at
most its own contribution to the maximum. -/

theorem roleScore_bounds (a : Assessment) (c : RecommendationCriteria) :
    0 ≤ (roleScore a c).1 ∧ (roleScore a c).1 ≤ (roleScore a c).2 := by
  unfold roleScore
  dsimp only
  split_ifs <;> norm_num

theorem competenciesScore_bounds (a : Assessment)
    (c : RecommendationCriteria) :
    0 ≤ (competenciesScore a c).1 ∧
      (competenciesScore a c).1 ≤ (competenciesScore a c).2 := by
  unfold competenciesScore
  dsimp only
  split_ifs with h1 h2
  · set required := ((c.competencies.getD []).map lowerStr).dedup with hreq
    have hne : required ≠ [] := by
      intro h
      rw [h] at h2
      simp at h2
    have hlen : 0 < (required.length : ℚ) := by
      have := List.length_pos.mpr hne
      exact_mod_cast this
    set overlap := (required.filter (fun x =>
      ((a.competencies.map lowerStr).dedup).contains x)).length with hov
    have hle : overlap ≤ required.length := List.length_filter_le _ _
    constructor
    · apply mul_nonneg _ (by norm_num)
      apply div_nonneg (by positivity) (le_of_lt hlen)
    · have hdiv : (overlap : ℚ) / (required.length : ℚ) ≤ 1 := by
        rw [div_le_one hlen]
        exact_mod_cast hle
      calc (overlap : ℚ) / (required.length : ℚ) * 25 ≤ 1 * 25 :=
            mul_le_mul_of_nonneg_right hdiv (by norm_num)
        _ = 25 := by norm_num
  · norm_num
  · norm_num

theorem useCaseScore_bounds (a : Assessment) (c : RecommendationCriteria) :
    0 ≤ (useCaseScore a c).1 ∧ (useCaseScore a c).1 ≤ (useCaseScore a c).2 := by
  unfold useCaseScore
  dsimp only
  split_ifs <;> norm_num

theorem typeScore_bounds {a : Assessment} {c : RecommendationCriteria}
    {p : ℚ × ℚ} (h : typeScore a c = .ok p) : 0 ≤ p.1 ∧ p.1 ≤ p.2 := by
  unfold typeScore at h
  split at h
  · split at h
    · cases h
    · dsimp only at h
      split at h <;> (injection h with h; subst h; norm_num)
  · injection h with h
    subst h
    norm_num

theorem durationScore_bounds {a : Assessment} {c : RecommendationCriteria}
    {p : ℚ × ℚ} (h : durationScore a c = .ok p) : 0 ≤ p.1 ∧ p.1 ≤ p.2 := by
  unfold durationScore at h
  split at h
  · split at h
    · cases h
    · dsimp only at h
      split at h
      · injection h with h; subst h; norm_num
      · split at h <;> (injection h with h; subst h; norm_num)
  · injection h with h
    subst h
    norm_num

theorem difficultyScore_bounds {a : Assessment} {c : RecommendationCriteria}
    {p : ℚ × ℚ} (h : difficultyScore a c = .ok p) : 0 ≤ p.1 ∧ p.1 ≤ p.2 := by
  unfold difficultyScore at h
  split at h
  · split at h
    · cases h
    · dsimp only at h
      split at h <;> (injection h with h; subst h; norm_num)
  · injection h with h
    subst h
    norm_num

theorem languageScore_bounds (a : Assessment) (c : RecommendationCriteria) :
    0 ≤ (languageScore a c).1 ∧
      (languageScore a c).1 ≤ (languageScore a c).2 := by
  unfold languageScore
  dsimp only
  split_ifs <;> norm_num

/-- Any score the scorer returns without raising lies in [0, 100]. -/
theorem calculate_match_score_range {a : Assessment}
    {c : RecommendationCriteria} {q : ℚ}
    (h : calculate_match_score a c = .ok q) : 0 ≤ q ∧ q ≤ 100 := by
  unfold calculate_match_score at h
  cases h4 : typeScore a c with
  | error err => rw [h4] at h; cases h
  | ok p4 =>
    rw [h4] at h
    cases h5 : durationScore a c with
    | error err => rw [h5] at h; cases h
    | ok p5 =>
      rw [h5] at h
      cases h6 : difficultyScore a c with
      | error err => rw [h6] at h; cases h
      | ok p6 =>
        rw [h6] at h
        dsimp only at h
        obtain ⟨h11, h12⟩ := roleScore_bounds a c
        obtain ⟨h21, h22⟩ := competenciesScore_bounds a c
        obtain ⟨h31, h32⟩ := useCaseScore_bounds a c
        obtain ⟨h41, h42⟩ := typeScore_bounds h4
        obtain ⟨h51, h52⟩ := durationScore_bounds h5
        obtain ⟨h61, h62⟩ := difficultyScore_bounds h6
        obtain ⟨h71, h72⟩ := languageScore_bounds a c
        split at h
        · rename_i hmax
          injection h with h
          subst h
          constructor
          · apply mul_nonneg _ (by norm_num)
            apply div_nonneg (by linarith) (le_of_lt hmax)
          · have hscore : (roleScore a c).1 + (competenciesScore a c).1 +
                (useCaseScore a c).1 + p4.1 + p5.1 + p6.1 +
                (languageScore a c).1 ≤
                (roleScore a c).2 + (competenciesScore a c).2 +
                (useCaseScore a c).2 + p4.2 + p5.2 + p6.2 +
                (languageScore a c).2 := by linarith
            have hdiv := (div_le_one hmax).mpr hscore
            calc _ ≤ 1 * 100 := mul_le_mul_of_nonneg_right hdiv (by norm_num)
              _ = 100 := by norm_num
        · injection h with h
          subst h
          norm_num

/-! ### Dimensions of an unset (falsy) criteria field contribute nothing. -/

theorem roleScore_of_not_truthy {a : Assessment} {c : RecommendationCriteria}
    (h : truthyStr c.target_role = false) : roleScore a c = (0, 0) := by
  unfold roleScore
  rw [h]
  simp

theorem competenciesScore_of_not_truthy {a : Assessment}
    {c : RecommendationCriteria} (h : truthyList c.competencies = false) :
    competenciesScore a c = (0, 0) := by
  unfold competenciesScore
  rw [h]
  simp

theorem useCaseScore_of_not_truthy {a : Assessment}
    {c : RecommendationCriteria} (h : truthyStr c.use_case = false) :
    useCaseScore a c = (0, 0) := by
  unfold useCaseScore
  rw [h]
  simp

theorem typeScore_of_not_truthy {a : Assessment}
    {c : RecommendationCriteria} (h : truthyStr c.assessment_type = false) :
    typeScore a c = .ok (0, 0) := by
  unfold typeScore
  rw [h]
  simp

theorem durationScore_of_not_truthy {a : Assessment}
    {c : RecommendationCriteria}
    (h : truthyInt c.max_duration_minutes = false) :
    durationScore a c = .ok (0, 0) := by
  unfold durationScore
  rw [h]
  simp

theorem difficultyScore_of_not_truthy {a : Assessment}
    {c : RecommendationCriteria} (h : truthyStr c.difficulty_level = false) :
    difficultyScore a c = .ok (0, 0) := by
  unfold difficultyScore
  rw [h]
  simp

theorem languageScore_of_not_truthy {a : Assessment}
    {c : RecommendationCriteria} (h : truthyStr c.language = false) :
    languageScore a c = (0, 0) := by
  unfold languageScore
  rw [h]
  simp

/-- An all-unset criteria object scores every assessment at exactly 0. -/
theorem calculate_match_score_of_no_field {a : Assessment}
    {c : RecommendationCriteria} (h : anyFieldSet c = false) :
    calculate_match_score a c = .ok 0 := by
  unfold anyFieldSet at h
  simp only [Bool.or_eq_false_iff] at h
  obtain ⟨⟨⟨⟨⟨⟨⟨h1, h2⟩, h3⟩, h4⟩, h5⟩, h6⟩, h7⟩, h8⟩ := h
  unfold calculate_match_score
  rw [typeScore_of_not_truthy h4, durationScore_of_not_truthy h5,
    difficultyScore_of_not_truthy h6, roleScore_of_not_truthy h1,
    competenciesScore_of_not_truthy h2, useCaseScore_of_not_truthy h3,
    languageScore_of_not_truthy h7]
  norm_num

/-! ### Membership facts for the pipeline stages. -/

theorem mem_scoreAll {criteria : RecommendationCriteria} :
    ∀ {l : List Assessment} {res : List ScoredResult},
      scoreAll criteria l = .ok res → ∀ r ∈ res, r.toAssessment ∈ l := by
  intro l
  induction l with
  | nil =>
    intro res h r hr
    injection h with h
    subst h
    cases hr
  | cons a rest ih =>
    intro res h r hr
    unfold scoreAll at h
    split at h
    · cases h
    · split at h
      · cases h
      · injection h with h
        subst h
        rcases List.mem_cons.mp hr with rfl | hr
        · exact List.mem_cons_self ..
        · exact List.mem_cons_of_mem _ (ih (by assumption) r hr)

theorem mem_filter_assessments_sub {l : List Assessment}
    {c : RecommendationCriteria} {a : Assessment}
    (h : a ∈ filter_assessments l c) : a ∈ l := by
  unfold filter_assessments at h
  split at h
  · exact List.mem_of_mem_filter h
  · exact h

theorem not_excluded_of_mem_filter {l : List Assessment}
    {c : RecommendationCriteria} {a : Assessment}
    (h : a ∈ filter_assessments l c) : a.id ∉ c.exclude_ids.getD [] := by
  unfold filter_assessments at h
  by_cases ht : truthyList c.exclude_ids
  · rw [if_pos ht] at h
    dsimp only at h
    have hmem := List.of_mem_filter h
    simpa using hmem
  · cases hex : c.exclude_ids with
    | none => simp
    | some ids =>
      rw [hex] at ht
      have : ids = [] := by
        cases ids with
        | nil => rfl
        | cons i is => simp [truthyList] at ht
      subst this
      simp

theorem mem_takeResults {e : Engine} :
    ∀ {l : List (Nat × ℚ)} {res : List TextResult},
      takeResults e l = .ok res → ∀ r ∈ res, r.toAssessment ∈ e.assessments := by
  intro l
  induction l with
  | nil =>
    intro res h r hr
    injection h with h
    subst h
    cases hr
  | cons p rest ih =>
    intro res h r hr
    obtain ⟨idx, sim⟩ := p
    unfold takeResults at h
    split at h
    · cases h
    · split at h
      · cases h
      · injection h with h
        subst h
        rcases List.mem_cons.mp hr with rfl | hr
        · exact List.getElem?_mem (by assumption)
        · exact ih (by assumption) r hr

theorem takeResults_ok_of_lt {e : Engine} :
    ∀ {l : List (Nat × ℚ)}, (∀ p ∈ l, p.1 < e.assessments.length) →
      ∃ res, takeResults e l = .ok res ∧ res.length = l.length := by
  intro l
  induction l with
  | nil => exact fun _ => ⟨[], rfl, rfl⟩
  | cons p rest ih =>
    intro hall
    obtain ⟨idx, sim⟩ := p
    obtain ⟨res, hres, hlen⟩ := ih fun p hp => hall p (List.mem_cons_of_mem _ hp)
    have hidx : idx < e.assessments.length := hall (idx, sim) (List.mem_cons_self _ _)
    refine ⟨{ toAssessment := e.assessments[idx], similarity := sim } :: res,
      ?_, by simp [hlen]⟩
    unfold takeResults
    rw [List.getElem?_eq_getElem hidx, hres]

/-! ### Concrete evaluation lemmas

Kernel reduction handles every part of the embedding except `ℚ` addition,
multiplication and division (whose normalisation is not
reduction-friendly), so concrete runs are computed by `decide` up to the
scorer's final normalisation step, which `norm_num` evaluates. -/

/-- Evaluate `_calculate_match_score` from the seven dimension values. -/
theorem calculate_match_score_eval (a : Assessment)
    (c : RecommendationCriteria) (p1 p2 p3 p4 p5 p6 p7 : ℚ × ℚ)
    (h1 : roleScore a c = p1) (h2 : competenciesScore a c = p2)
    (h3 : useCaseScore a c = p3) (h4 : typeScore a c = .ok p4)
    (h5 : durationScore a c = .ok p5) (h6 : difficultyScore a c = .ok p6)
    (h7 : languageScore a c = p7) :
    calculate_match_score a c =
      if p1.2 + p2.2 + p3.2 + p4.2 + p5.2 + p6.2 + p7.2 > 0 then
        .ok ((p1.1 + p2.1 + p3.1 + p4.1 + p5.1 + p6.1 + p7.1) /
          (p1.2 + p2.2 + p3.2 + p4.2 + p5.2 + p6.2 + p7.2) * 100)
      else .ok 0 := by
  unfold calculate_match_score
  rw [h4]
  rw [h5]
  rw [h6]
  rw [h1, h2, h3, h7]

theorem eval_score_A1_manager :
    calculate_match_score sampleA1 cManager = .ok 0 := by
  rw [calculate_match_score_eval sampleA1 cManager (0, 30) (0, 0) (0, 0)
    (0, 0) (0, 0) (0, 0) (0, 0) (by decide) (by decide) (by decide)
    (by decide) (by decide) (by decide) (by decide)]
  norm_num

theorem eval_score_A2_manager :
    calculate_match_score sampleA2 cManager = .ok 100 := by
  rw [calculate_match_score_eval sampleA2 cManager (30, 30) (0, 0) (0, 0)
    (0, 0) (0, 0) (0, 0) (0, 0) (by decide) (by decide) (by decide)
    (by decide) (by decide) (by decide) (by decide)]
  norm_num

theorem eval_score_A1_analyst :
    calculate_match_score sampleA1 cAnalystHiring = .ok 100 := by
  rw [calculate_match_score_eval sampleA1 cAnalystHiring (30, 30) (0, 0)
    (20, 20) (0, 0) (0, 0) (0, 0) (0, 0) (by decide) (by decide) (by decide)
    (by decide) (by decide) (by decide) (by decide)]
  norm_num

theorem eval_score_A2_exclude :
    calculate_match_score sampleA2 cExclude = .ok 0 := by
  rw [calculate_match_score_eval sampleA2 cExclude (0, 0) (0, 0) (0, 0)
    (0, 0) (0, 0) (0, 0) (0, 0) (by decide) (by decide) (by decide)
    (by decide) (by decide) (by decide) (by decide)]
  norm_num

theorem eval_round2_zero : round2 0 = 0 := by
  unfold round2 roundHalfEven
  norm_num

theorem eval_round2_hundred : round2 100 = 100 := by
  unfold round2 roundHalfEven
  norm_num

theorem eval_scoreAll_manager :
    scoreAll cManager (filter_assessments engineW.assessments cManager) =
      .ok [scoredA1zero, scoredA2hundred] := by
  rw [show filter_assessments engineW.assessments cManager =
    [sampleA1, sampleA2] from by decide]
  simp [scoreAll, eval_score_A1_manager, eval_score_A2_manager,
    eval_round2_zero, eval_round2_hundred, scoredA1zero, scoredA2hundred]

theorem eval_scoreAll_exclude :
    scoreAll cExclude (filter_assessments engineW.assessments cExclude) =
      .ok [scoredA2zero] := by
  rw [show filter_assessments engineW.assessments cExclude = [sampleA2]
    from by decide]
  simp [scoreAll, eval_score_A2_exclude, eval_round2_zero, scoredA2zero]

theorem eval_recommend_manager1 :
    recommend engineW cManager 1 = .ok [scoredA2hundred] := by
  unfold recommend
  rw [eval_scoreAll_manager]
  decide

theorem eval_recommend_manager5 :
    recommend engineW cManager 5 = .ok [scoredA2hundred, scoredA1zero] := by
  unfold recommend
  rw [eval_scoreAll_manager]
  decide

theorem eval_recommend_exclude :
    recommend engineW cExclude 5 = .ok [scoredA2zero] := by
  unfold recommend
  rw [eval_scoreAll_exclude]
  decide

theorem eval_rft_query3 :
    recommend_from_text engineW [(1 : ℚ), 2] "query" 3 =
      .ok [textA2, textA1] := by
  decide

/-! ### The claims -/

/-- C1: for every assessment and every criteria object with at least one
field set, any score `_calculate_match_score` returns lies in [0, 100]; for
a criteria object with no field set, the score is exactly 0 for every
assessment (the accumulated max-possible stays 0). -/
theorem c1_score_range (a : Assessment) (c : RecommendationCriteria) :
    (anyFieldSet c = true →
      ∀ q : ℚ, calculate_match_score a c = .ok q → 0 ≤ q ∧ q ≤ 100) ∧
    (anyFieldSet c = false → calculate_match_score a c = .ok 0) :=
  ⟨fun _ _ h => calculate_match_score_range h,
   fun h => calculate_match_score_of_no_field h⟩

theorem c1_score_range_witness :
    anyFieldSet cManager = true ∧
    calculate_match_score sampleA1 cManager = .ok 0 ∧
    ((0 : ℚ) ≤ 0 ∧ (0 : ℚ) ≤ 100) ∧
    anyFieldSet noCriteria = false ∧
    calculate_match_score sampleA1 noCriteria = .ok 0 :=
  ⟨by decide, eval_score_A1_manager,
   (c1_score_range sampleA1 cManager).1 (by decide) 0 eval_score_A1_manager,
   by decide, (c1_score_range sampleA1 noCriteria).2 (by decide)⟩

/-- C2: for every criteria object and every non-negative integer `N`,
`recommend(criteria, top_n := N)` returns at most `N` records, sorted by
match score descending; among records of any equal score the original
catalogue order (the order of the scored candidate list) is preserved. -/
theorem c2_recommend_sorted (e : Engine) (c : RecommendationCriteria)
    (N : Int) (hN : 0 ≤ N) (res scored : List ScoredResult)
    (hres : recommend e c N = .ok res)
    (hscored : scoreAll c (filter_assessments e.assessments c) = .ok scored) :
    res.length ≤ N.toNat ∧
    res.Pairwise (fun r s => s.match_score ≤ r.match_score) ∧
    ∀ q : ℚ, List.Sublist (res.filter (fun r => r.match_score == q))
      (scored.filter (fun r => r.match_score == q)) := by
  unfold recommend at hres
  rw [hscored] at hres
  injection hres with hres
  subst hres
  refine ⟨length_pySliceTo_le _ _ hN, ?_, ?_⟩
  · exact List.Pairwise.sublist (pySliceTo_sublist _ _)
      (pairwise_sortDescBy ScoredResult.match_score scored)
  · intro q
    have h1 := (pySliceTo_sublist N
      (sortDescBy ScoredResult.match_score scored)).filter
      (fun r => r.match_score == q)
    rwa [filter_sortDescBy ScoredResult.match_score q scored] at h1

theorem c2_recommend_sorted_witness :
    (0 : Int) ≤ 1 ∧
    recommend engineW cManager 1 = .ok [scoredA2hundred] ∧
    scoreAll cManager (filter_assessments engineW.assessments cManager) =
      .ok [scoredA1zero, scoredA2hundred] ∧
    (([scoredA2hundred] : List ScoredResult).length ≤ (1 : Int).toNat ∧
     ([scoredA2hundred] : List ScoredResult).Pairwise
       (fun r s => s.match_score ≤ r.match_score) ∧
     ∀ q : ℚ, List.Sublist
       (([scoredA2hundred] : List ScoredResult).filter
         (fun r => r.match_score == q))
       (([scoredA1zero, scoredA2hundred] : List ScoredResult).filter
         (fun r => r.match_score == q))) :=
  ⟨by norm_num, eval_recommend_manager1, eval_scoreAll_manager,
   c2_recommend_sorted engineW cManager 1 (by norm_num)
     [scoredA2hundred] [scoredA1zero, scoredA2hundred]
     eval_recommend_manager1 eval_scoreAll_manager⟩

/-- C3: on a non-empty catalogue with built index and non-empty,
non-whitespace text, `recommend_from_text` returns exactly
`min(len(catalogue), max(5, min(top_n, 10)))` records — between
`min(5, candidate_count)` and 10 inclusive, whatever `top_n` was. -/
theorem c3_text_count (e : Engine) (sims : List ℚ) (text : String)
    (top_n : Int) (hlen : sims.length = e.assessments.length)
    (htext : text ≠ "") (htrim : pyStrip text ≠ "")
    (hcat : e.assessments ≠ []) (hidx : e.indexBuilt = true) :
    ∃ res, recommend_from_text e sims text top_n = .ok res ∧
      res.length = min (max 5 (min top_n 10)).toNat e.assessments.length ∧
      min 5 e.assessments.length ≤ res.length ∧ res.length ≤ 10 := by
  have hall : ∀ p ∈ pySliceTo (max top_n 10)
      (sortDescBy Prod.snd (pyEnumerate 0 sims)),
      p.1 < e.assessments.length := by
    intro p hp
    have h1 : p ∈ sortDescBy Prod.snd (pyEnumerate 0 sims) :=
      (pySliceTo_sublist _ _).subset hp
    have h2 : p ∈ pyEnumerate 0 sims := mem_sortDescBy.mp h1
    have h3 := fst_lt_of_mem_pyEnumerate h2
    omega
  obtain ⟨results, hok, hlenres⟩ := takeResults_ok_of_lt hall
  have hres : recommend_from_text e sims text top_n =
      .ok (pySliceTo (max 5 (min top_n 10)) results) := by
    unfold recommend_from_text
    have hg1 : (text == "") = false := by
      rwa [beq_eq_false_iff_ne]
    have hg2 : e.assessments.isEmpty = false := by
      rwa [List.isEmpty_eq_false]
    have hg3 : (pyStrip text == "") = false := by
      rwa [beq_eq_false_iff_ne]
    simp [hg1, hg2, hg3, hidx, hok]
  refine ⟨_, hres, ?_, ?_, ?_⟩ <;>
    rw [length_pySliceTo _ _ (by omega)] <;>
    rw [hlenres, length_pySliceTo _ _ (by omega),
      length_sortDescBy, length_pyEnumerate, hlen] <;>
    omega

theorem c3_text_count_witness :
    ([(1 : ℚ), 2].length = engineW.assessments.length) ∧
    ("query" ≠ "") ∧ (pyStrip "query" ≠ "") ∧
    (engineW.assessments ≠ []) ∧ (engineW.indexBuilt = true) ∧
    (∃ res, recommend_from_text engineW [(1 : ℚ), 2] "query" 3 =
        .ok res ∧
      res.length =
        min (max 5 (min (3 : Int) 10)).toNat engineW.assessments.length ∧
      min 5 engineW.assessments.length ≤ res.length ∧ res.length ≤ 10) :=
  ⟨by decide, by decide, by decide, by decide, by decide,
   c3_text_count engineW [(1 : ℚ), 2] "query" 3 (by decide) (by decide)
     (by decide) (by decide) (by decide)⟩

/-- C4: no record whose id appears in `exclude_ids` ever appears in
`recommend`'s output, regardless of score and of `top_n`. -/
theorem c4_excluded_absent (e : Engine) (c : RecommendationCriteria)
    (top_n : Int) (res : List ScoredResult)
    (hres : recommend e c top_n = .ok res) :
    ∀ r ∈ res, r.toAssessment.id ∉ c.exclude_ids.getD [] := by
  intro r hr
  unfold recommend at hres
  cases hsc : scoreAll c (filter_assessments e.assessments c) with
  | error err => rw [hsc] at hres; cases hres
  | ok scored =>
    rw [hsc] at hres
    injection hres with hres
    subst hres
    have h1 : r ∈ scored :=
      mem_sortDescBy.mp ((pySliceTo_sublist _ _).subset hr)
    exact not_excluded_of_mem_filter (mem_scoreAll hsc r h1)

theorem c4_excluded_absent_witness :
    recommend engineW cExclude 5 = .ok [scoredA2zero] ∧
    scoredA2zero ∈ ([scoredA2zero] : List ScoredResult) ∧
    scoredA2zero.toAssessment.id ∉ cExclude.exclude_ids.getD [] :=
  ⟨eval_recommend_exclude, List.mem_cons_self _ _,
   c4_excluded_absent engineW cExclude 5 [scoredA2zero]
     eval_recommend_exclude scoredA2zero (List.mem_cons_self _ _)⟩

/-- C5: the claim says scoring never raises for records conforming to the
declared schema, which permits `null` for `type`, `duration_minutes` and
`difficulty_level`. The code violates this: with `assessment_type` set in
the criteria, a record whose `type` is `null` makes
`assessment.get('type','').lower()` raise AttributeError, and with
`max_duration_minutes` set, a `null` `duration_minutes` makes
`None <= int` raise TypeError. (The repository's own crawler emits
`"type": null`, and `_build_text_index` guards the same access with
`or ""`, so the scorer's unguarded access is a slip.) -/
theorem c5_null_fields_raise :
    calculate_match_score { sampleA1 with type := some none }
      { noCriteria with assessment_type := some "cognitive" } =
      .error "AttributeError" ∧
    calculate_match_score { sampleA1 with duration_minutes := some none }
      { noCriteria with max_duration_minutes := some 30 } =
      .error "TypeError" := by
  exact ⟨by decide, by decide⟩

/-- C6 counterexample: a source that parses to valid JSON whose top level
is not an object (here the array `[]`) "cannot be parsed as an object
containing a list under an `assessments` key", yet construction fails with
the uncaught AttributeError from `data.get`, not with the
CatalogueMalformed condition the claim requires. -/
theorem c6_load_counterexample :
    load_catalogue (some (.ok (Json.arr []))) =
      .error LoadError.attributeError ∧
    LoadError.attributeError ≠ LoadError.catalogueMalformed :=
  ⟨rfl, by decide⟩

/-- C6 (amended): a missing source fails with CatalogueNotFound; a source
that is not syntactically valid JSON fails with CatalogueMalformed; an
object missing the `assessments` key yields an empty catalogue; but a
source parsing to a non-object JSON value fails with an uncaught
AttributeError rather than CatalogueMalformed. -/
theorem c6_load_conditions :
    load_catalogue none = .error LoadError.catalogueNotFound ∧
    (∀ msg, load_catalogue (some (.error msg)) =
      .error LoadError.catalogueMalformed) ∧
    (∀ fields, lookupField fields "assessments" = none →
      load_catalogue (some (.ok (Json.obj fields))) = .ok (Json.arr [])) ∧
    (∀ j : Json, (∀ fields, j ≠ Json.obj fields) →
      load_catalogue (some (.ok j)) = .error LoadError.attributeError) := by
  refine ⟨rfl, fun msg => rfl, fun fields h => ?_, fun j h => ?_⟩
  · show Except.ok ((lookupField fields "assessments").getD (Json.arr [])) =
      .ok (Json.arr [])
    rw [h]
    rfl
  · cases j with
    | obj fields => exact absurd rfl (h fields)
    | null => rfl
    | bool b => rfl
    | num q => rfl
    | str s => rfl
    | arr elems => rfl

theorem c6_load_conditions_witness :
    load_catalogue (some (.error "expecting value")) =
      .error LoadError.catalogueMalformed ∧
    lookupField [] "assessments" = none ∧
    load_catalogue (some (.ok (Json.obj []))) = .ok (Json.arr []) ∧
    load_catalogue (some (.ok Json.null)) = .error LoadError.attributeError :=
  ⟨c6_load_conditions.2.1 "expecting value", rfl,
   c6_load_conditions.2.2.1 [] rfl,
   c6_load_conditions.2.2.2 Json.null (fun _ h => Json.noConfusion h)⟩

/-- C7: `recommend_from_text` returns an empty list, raising nothing,
whenever the text is empty or whitespace-only, the catalogue is empty, or
the text index was never built. -/
theorem c7_soft_failures (e : Engine) (sims : List ℚ) (text : String)
    (top_n : Int)
    (h : text = "" ∨ pyStrip text = "" ∨ e.assessments = [] ∨
      e.indexBuilt = false) :
    recommend_from_text e sims text top_n = .ok [] := by
  unfold recommend_from_text
  rcases h with h | h | h | h
  · rw [h]
    simp
  · by_cases h1 : (text == "" || e.assessments.isEmpty || !e.indexBuilt) = true
    · rw [if_pos h1]
    · rw [if_neg h1, if_pos (by rwa [beq_iff_eq])]
  · rw [h]
    simp
  · rw [h]
    simp

theorem c7_soft_failures_witness :
    ("   " = "" ∨ pyStrip "   " = "" ∨ engineW.assessments = [] ∨
      engineW.indexBuilt = false) ∧
    recommend_from_text engineW [(1 : ℚ), 2] "   " 7 = .ok [] :=
  ⟨Or.inr (Or.inl (by decide)),
   c7_soft_failures engineW [(1 : ℚ), 2] "   " 7
     (Or.inr (Or.inl (by decide)))⟩

/-- C8: on the spec's single-record scenario, criteria
`{target_role := "analyst", use_case := "hiring"}` scores exactly 100 and
criteria `{target_role := "manager"}` scores exactly 0. -/
theorem c8_scenario_scores :
    calculate_match_score sampleA1 cAnalystHiring = .ok 100 ∧
    calculate_match_score sampleA1 cManager = .ok 0 :=
  ⟨eval_score_A1_analyst, eval_score_A1_manager⟩

/-- C9: each record either facade returns is a fresh composite whose
assessment part is exactly one of the stored catalogue records — scoring
attaches `match_score`/`similarity` in a new value and the stored records
(the pure `e.assessments` list, unchanged by the call) are untouched. -/
theorem c9_results_from_catalogue (e : Engine) (c : RecommendationCriteria)
    (sims : List ℚ) (text : String) (top_n : Int) :
    (∀ res, recommend e c top_n = .ok res →
      ∀ r ∈ res, r.toAssessment ∈ e.assessments) ∧
    (∀ res, recommend_from_text e sims text top_n = .ok res →
      ∀ r ∈ res, r.toAssessment ∈ e.assessments) := by
  constructor
  · intro res hres r hr
    unfold recommend at hres
    cases hsc : scoreAll c (filter_assessments e.assessments c) with
    | error err => rw [hsc] at hres; cases hres
    | ok scored =>
      rw [hsc] at hres
      injection hres with hres
      subst hres
      have h1 : r ∈ scored :=
        mem_sortDescBy.mp ((pySliceTo_sublist _ _).subset hr)
      exact mem_filter_assessments_sub (mem_scoreAll hsc r h1)
  · intro res hres r hr
    unfold recommend_from_text at hres
    split at hres
    · injection hres with hres
      subst hres
      cases hr
    · split at hres
      · injection hres with hres
        subst hres
        cases hr
      · dsimp only at hres
        split at hres
        · cases hres
        · injection hres with hres
          subst hres
          have h1 := (pySliceTo_sublist _ _).subset hr
          exact mem_takeResults (by assumption) r h1

theorem c9_results_from_catalogue_witness :
    recommend engineW cManager 5 = .ok [scoredA2hundred, scoredA1zero] ∧
    scoredA2hundred ∈ ([scoredA2hundred, scoredA1zero] : List ScoredResult) ∧
    scoredA2hundred.toAssessment ∈ engineW.assessments ∧
    recommend_from_text engineW [(1 : ℚ), 2] "query" 3 =
      .ok [textA2, textA1] ∧
    textA2 ∈ ([textA2, textA1] : List TextResult) ∧
    textA2.toAssessment ∈ engineW.assessments :=
  ⟨eval_recommend_manager5, List.mem_cons_self _ _,
   (c9_results_from_catalogue engineW cManager [(1 : ℚ), 2] "query" 5).1
     [scoredA2hundred, scoredA1zero] eval_recommend_manager5 scoredA2hundred
     (List.mem_cons_self _ _),
   eval_rft_query3, List.mem_cons_self _ _,
   (c9_results_from_catalogue engineW cManager [(1 : ℚ), 2] "query" 3).2
     [textA2, textA1] eval_rft_query3 textA2 (List.mem_cons_self _ _)⟩

/-- C10: a criteria field explicitly set to its falsy value behaves exactly
like an unset field — the empty string for the five string criteria, the
empty list for `competencies`, `0` for `max_duration_minutes` — and an
empty `exclude_ids` list filters out nothing. -/
theorem c10_falsy_is_unset (a : Assessment) (c : RecommendationCriteria)
    (l : List Assessment) :
    calculate_match_score a { c with target_role := some "" } =
      calculate_match_score a { c with target_role := none } ∧
    calculate_match_score a { c with competencies := some [] } =
      calculate_match_score a { c with competencies := none } ∧
    calculate_match_score a { c with use_case := some "" } =
      calculate_match_score a { c with use_case := none } ∧
    calculate_match_score a { c with assessment_type := some "" } =
      calculate_match_score a { c with assessment_type := none } ∧
    calculate_match_score a { c with max_duration_minutes := some 0 } =
      calculate_match_score a { c with max_duration_minutes := none } ∧
    calculate_match_score a { c with difficulty_level := some "" } =
      calculate_match_score a { c with difficulty_level := none } ∧
    calculate_match_score a { c with language := some "" } =
      calculate_match_score a { c with language := none } ∧
    filter_assessments l { c with exclude_ids := some [] } =
      filter_assessments l { c with exclude_ids := none } :=
  ⟨rfl, rfl, rfl, rfl, rfl, rfl, rfl, rfl⟩

end AssessmentRec
